import Mathlib

/-!
Verification development for the ai-chatbox voice-assistant pipeline.

The definitions below are a shallow embedding of the Rust sources:
  * `src/tts.rs`              — TTS text-chunking (`split_text_into_chunks`,
                                `split_long_sentence`);
  * `src/llm_intf.rs`         — LLM conversation history (`send_message`,
                                `clear_history`);
  * `src/transcription.rs`    — conversation worker (`TranscribeFile` and
                                `RestartSession` handling);
  * `src/audio_processing.rs` — the continuous-conversation fetch state
                                machine (two states);
  * `src/main.rs`             — the earlier three-state fetch state machine.

Rust strings are modelled as `List Char`; `str::len` (a UTF-8 byte count)
is modelled by `utf8Len`, while `str::chars().count()` is `List.length`.
-/

namespace AiChatbox

/-! ## Text model -/

/-- Byte length of a Rust string (`str::len`), as the sum of the UTF-8
sizes of its characters. -/
def utf8Len (l : List Char) : Nat := (l.map Char.utf8Size).sum

/-- The sentence terminators used by `split_text_into_chunks`
(`tts.rs` line 163): CJK and ASCII period / exclamation / question mark. -/
def isSentenceSep (c : Char) : Bool :=
  c == '。' || c == '！' || c == '？' || c == '.' || c == '!' || c == '?'

/-- The comma separators used by `split_long_sentence` (`tts.rs` line 219). -/
def isCommaSep (c : Char) : Bool := c == '，' || c == ','

/-- The Unicode White_Space code points recognised by Rust
`char::is_whitespace`. -/
def isRustWhitespace (c : Char) : Bool :=
  (0x9 ≤ c.val && c.val ≤ 0xD) || c.val == 0x20 || c.val == 0x85 ||
  c.val == 0xA0 || c.val == 0x1680 ||
  (0x2000 ≤ c.val && c.val ≤ 0x200A) ||
  c.val == 0x2028 || c.val == 0x2029 || c.val == 0x202F ||
  c.val == 0x205F || c.val == 0x3000

/-- Rust `str::trim`: drop whitespace from both ends. -/
def rustTrim (l : List Char) : List Char :=
  ((l.dropWhile isRustWhitespace).reverse.dropWhile isRustWhitespace).reverse

/-- Rust `slice::chunks`: consecutive chunks of `n` elements, the last one
possibly shorter.  (Rust panics when `n = 0`; here `n = 0` behaves like
`n = 1` and all theorems assume `0 < n`.) -/
def sliceChunks (n : Nat) : List Char → List (List Char)
  | [] => []
  | x :: xs => (x :: xs.take (n - 1)) :: sliceChunks n (xs.drop (n - 1))
  termination_by l => l.length
  decreasing_by simp [List.length_drop]; omega

/-! ## tts.rs: split_long_sentence and split_text_into_chunks -/

/-- One iteration of the per-part loop of `split_long_sentence`
(`tts.rs` lines 221-255).  The accumulator is the pair
(chunks so far, current_chunk). -/
def processPart (maxChars : Nat) (st : List (List Char) × List Char)
    (part0 : List Char) : List (List Char) × List Char :=
  let part := rustTrim part0
  if part = [] then st
  else
    let chunks := st.1
    let current := st.2
    -- if !current.is_empty() && current.len() + part.len() + 1 > max_chars
    let p :=
      if current ≠ [] ∧ maxChars < utf8Len current + utf8Len part + 1 then
        (chunks ++ [current], ([] : List Char))
      else (chunks, current)
    if maxChars < utf8Len part then
      -- part longer than the limit: flush current, hard-split by characters
      let chunks2 := if p.2 ≠ [] then p.1 ++ [p.2] else p.1
      (chunks2 ++ sliceChunks maxChars part, [])
    else
      if p.2 = [] then (p.1, part) else (p.1, p.2 ++ ' ' :: part)

/-- `TtsEngine::split_long_sentence` (`tts.rs` lines 214-262): split a long
sentence on commas; any over-length fragment is hard-split at character
boundaries. -/
def split_long_sentence (sentence : List Char) (maxChars : Nat) :
    List (List Char) :=
  let st := (sentence.splitOnP isCommaSep).foldl (processPart maxChars) ([], [])
  if st.2 ≠ [] then st.1 ++ [st.2] else st.1

/-- The sub-chunk assembly step inside `split_text_into_chunks`
(`tts.rs` lines 180-191). -/
def appendUnit (maxChars : Nat) (st : List (List Char) × List Char)
    (u : List Char) : List (List Char) × List Char :=
  let chunks := st.1
  let current := st.2
  let p :=
    if current ≠ [] ∧ maxChars < utf8Len current + utf8Len u + 1 then
      (chunks ++ [current], ([] : List Char))
    else (chunks, current)
  if p.2 = [] then (p.1, u) else (p.1, p.2 ++ ' ' :: u)

/-- One iteration of the per-sentence loop of `split_text_into_chunks`
(`tts.rs` lines 165-199). -/
def processSentence (maxChars : Nat) (st : List (List Char) × List Char)
    (sentence0 : List Char) : List (List Char) × List Char :=
  let sentence := rustTrim sentence0
  if sentence = [] then st
  else
    let chunks := st.1
    let current := st.2
    let p :=
      if current ≠ [] ∧ maxChars < utf8Len current + utf8Len sentence + 1 then
        (chunks ++ [current], ([] : List Char))
      else (chunks, current)
    if maxChars < utf8Len sentence then
      (split_long_sentence sentence maxChars).foldl (appendUnit maxChars) p
    else
      if p.2 = [] then (p.1, sentence) else (p.1, p.2 ++ ' ' :: sentence)

/-- `split_text_into_chunks` before its final fallback (`tts.rs` lines
158-204): accumulated chunks plus the final non-empty current chunk. -/
def split_text_into_chunks_core (text : List Char) (maxChars : Nat) :
    List (List Char) :=
  let st := (text.splitOnP isSentenceSep).foldl (processSentence maxChars)
    ([], [])
  if st.2 ≠ [] then st.1 ++ [st.2] else st.1

/-- `TtsEngine::split_text_into_chunks` (`tts.rs` lines 158-212), including
the fallback that returns the original text whole when no chunk was
produced (lines 206-209). -/
def split_text_into_chunks (text : List Char) (maxChars : Nat) :
    List (List Char) :=
  let chunks := split_text_into_chunks_core text maxChars
  if chunks = [] then [text] else chunks

/-! ## llm_intf.rs: the conversation context

`LlmHelper`'s numeric configuration (`max_tokens`, `temperature`, `top_p`)
and connection fields never influence the message history and are floating
point, so only `message_history` is modelled.  The HTTP exchange of
`make_api_request` is abstracted as an oracle `api` mapping the request
history to one of its three observable outcomes. -/

structure ChatMessage where
  role : String
  content : String
deriving DecidableEq

inductive ChatRole
  | system
  | user
  | assistant
deriving DecidableEq

/-- `ChatRole::as_str` (`llm_intf.rs` lines 19-25). -/
def ChatRole.as_str : ChatRole → String
  | .system => "system"
  | .user => "user"
  | .assistant => "assistant"

/-- Observable outcome of `LlmHelper::make_api_request` (`llm_intf.rs`
lines 192-324): a parsed response with a first choice (its message is
appended to the history and its content returned), a parsed response with
no choices (fixed message, nothing appended), or any failure (propagated
as `Err`). -/
inductive ApiResult
  | success (msg : ChatMessage)
  | noChoices
  | failure (err : String)
deriving DecidableEq

structure LlmHelper where
  message_history : List ChatMessage
deriving DecidableEq

/-- `LlmHelper::clear_history` (`llm_intf.rs` lines 136-148): keep only
the messages whose role is `system` (a no-op on an empty history). -/
def clear_history (s : LlmHelper) : LlmHelper :=
  if s.message_history = [] then s
  else ⟨s.message_history.filter (fun m => m.role == "system")⟩

/-- `LlmHelper::send_message` (`llm_intf.rs` lines 166-189).  Returns the
new helper state, the returned string, and whether an API request was
made.  A `System` message is stored and returns the empty string with no
API request; otherwise the request outcome is given by the oracle
`api`. -/
def send_message (s : LlmHelper) (text : String) (role : ChatRole)
    (api : List ChatMessage → ApiResult) : LlmHelper × String × Bool :=
  let h := s.message_history ++ [⟨role.as_str, text⟩]
  match role with
  | .system => (⟨h⟩, "", false)
  | _ =>
    match api h with
    | .success msg => (⟨h ++ [msg]⟩, msg.content, true)
    | .noChoices => (⟨h⟩, "No response choices returned from API", true)
    | .failure e => (⟨h⟩, "Error: " ++ e, true)

/-! ## transcription.rs: the conversation worker -/

/-- The initial system prompt sent at worker start-up
(`transcription.rs` lines 51-55). -/
def system_prompt : String :=
  "接下来的请求来自一个语音转文字服务，请小心中间可能有一些字词被识别成同音的字词。请不要使用列表，回答保持一个段落。"

/-- The system prompt re-sent by the `RestartSession` handler
(`transcription.rs` lines 142-146); note it differs from the start-up
prompt. -/
def restart_system_prompt : String :=
  "接下来的请求来自一个语音转文字服务，请小心中间可能有一些字词被识别成同音的字词。请不要使用列表，不要包含*，回答保持一个段落。"

/-- The exit phrase recognised by the worker and the state machine. -/
def exit_phrase : String := "再见"

/-- The LLM helper state right after worker start-up: the initial system
prompt has been sent (`transcription.rs` lines 36-57). -/
def worker_init_llm (api : List ChatMessage → ApiResult) : LlmHelper :=
  (send_message ⟨[]⟩ system_prompt .system api).1

/-- Externally visible actions of one worker message-handling, in
program order. -/
inductive WorkerEvent
  | sendResponse (s : String)
  | ttsPlay (s : String)
  | llmCall (text : String)
deriving DecidableEq

/-- The `RestartSession` branch of `transcription_worker`
(`transcription.rs` lines 138-147): clear the history, then re-send the
system prompt. -/
def handle_restart_session (s : LlmHelper)
    (api : List ChatMessage → ApiResult) : LlmHelper :=
  (send_message (clear_history s) restart_system_prompt .system api).1

/-- The `TranscribeFile` branch of `transcription_worker`
(`transcription.rs` lines 81-136), given the outcome of
`transcribe_audio`.  Returns the new LLM state and the ordered list of
visible actions. -/
def handle_transcribe_file (s : LlmHelper)
    (transcription : Except String String)
    (api : List ChatMessage → ApiResult) : LlmHelper × List WorkerEvent :=
  match transcription with
  | .error e => (s, [.sendResponse ("Error: " ++ e)])
  | .ok t =>
    if t = "" then (s, [])
    else if t = exit_phrase then (s, [.sendResponse t, .ttsPlay exit_phrase])
    else
      let r := send_message s t .user api
      if r.2.1.startsWith "Error:" then (r.1, [.sendResponse t, .llmCall t])
      else (r.1, [.sendResponse t, .llmCall t, .ttsPlay r.2.1])

/-! ## The fetch state machines

The repository contains two iterations of `inner_fetch_proc`:

* `audio_processing.rs` (lines 197-436): two states
  (`WakeWordDetecting`, `Recording`), continuous conversation, a
  `RestartSession` message on wake, a non-blocking poll of the response
  channel for the exit phrase, and a `duration() > 0` guard before
  dispatching `TranscribeFile`;
* `main.rs` (lines 455-625): three states (adding `CmdDetecting`),
  single-shot recording, no response channel, no sample-count guard, and
  dispatch only when `flush_filesystem` succeeded.

One loop iteration of each is modelled as a pure step function over the
loop-local variables, taking the values read from the engine and channels
during that iteration as input and reporting the externally visible
actions as output.  `TranscribeFile { path }` and `WavWriter::create`
paths have the fixed shape `/vfat/audio{i}.wav`, so messages and created
files are identified by the index `i`. -/

/-- Per-frame VAD classification from the AFE fetch result. -/
inductive Vad
  | speech
  | silence
deriving DecidableEq

/-- The fields of `afe_fetch_result_t` read by the fetch loops.  The
sizes are byte counts; samples are 16-bit, so `size / 2` samples are
written. -/
structure FetchResult where
  wakeup_detected : Bool
  vad_state : Vad
  data_size : Nat
  vad_cache_size : Nat
deriving DecidableEq

/-- The open recording: the index of its `/vfat/audio{idx}.wav` file and
the number of samples written so far (`WavWriter::duration`). -/
structure RecordingSession where
  idx : Nat
  samples : Nat
deriving DecidableEq

/-- `TranscriptionMessage` (`transcription.rs` lines 17-21), with
`TranscribeFile` paths identified by their file index. -/
inductive TranscriptionMessage
  | transcribeFile (idx : Nat)
  | restartSession
  | shutdown
deriving DecidableEq

/-- `State` in `audio_processing.rs` (lines 16-21). -/
inductive APState
  | wakeWordDetecting
  | recording
deriving DecidableEq

/-- The loop-local variables of `inner_fetch_proc` in
`audio_processing.rs`: `state`, `file_idx`, `wav_writer`,
`silence_frames`. -/
structure ApMachine where
  state : APState
  file_idx : Nat
  wav_writer : Option RecordingSession
  silence_frames : Nat
deriving DecidableEq

/-- What one iteration of the `audio_processing.rs` fetch loop reads:
whether the fetch failed (null result or `ESP_FAIL`), the fetch result,
the non-blocking `try_recv` on the response channel (`none` for both
`Empty` and `Disconnected`), and whether `flush_filesystem`
succeeds if called. -/
structure ApInput where
  engine_fail : Bool
  res : FetchResult
  response : Option String
  flush_ok : Bool
deriving DecidableEq

/-- Externally visible actions of one `audio_processing.rs` loop
iteration. -/
structure ApOutput where
  sent : List TranscriptionMessage
  created : List Nat
  enabled_wakenet : Bool
  disabled_wakenet : Bool
  flush_attempted : Bool
deriving DecidableEq

/-- The silent output: nothing sent, created or toggled. -/
def apQuiet : ApOutput := ⟨[], [], false, false, false⟩

/-- `frames_per_second` in `audio_processing.rs` line 232
(`16000 / 256`). -/
def ap_frames_per_second : Nat := 16000 / 256

/-- The silence threshold `frames_per_second * 2` of
`audio_processing.rs` line 339. -/
def ap_silence_threshold : Nat := ap_frames_per_second * 2

/-- The initial loop state of `inner_fetch_proc`
(`audio_processing.rs` lines 224-231). -/
def apInit : ApMachine := ⟨.wakeWordDetecting, 0, none, 0⟩

/-- One iteration of the `audio_processing.rs` fetch loop
(lines 237-435). -/
def ap_fetch_step (m : ApMachine) (inp : ApInput) : ApMachine × ApOutput :=
  if inp.engine_fail then (m, apQuiet)
  else
    match m.state with
    | .wakeWordDetecting =>
      if inp.res.wakeup_detected then
        -- lines 256-296: disable wakenet, send RestartSession, open a
        -- new WAV file, reset the silence counter
        (⟨.recording, m.file_idx + 1, some ⟨m.file_idx, 0⟩, 0⟩,
         ⟨[.restartSession], [m.file_idx], false, true, false⟩)
      else (m, apQuiet)
    | .recording =>
      if inp.response = some exit_phrase then
        -- lines 306-322: finalize, bump file_idx, re-enable wakenet
        (⟨.wakeWordDetecting, m.file_idx + 1, none, m.silence_frames⟩,
         ⟨[], [], true, false, false⟩)
      else
        match inp.res.vad_state with
        | .silence =>
          -- lines 335-400
          if ap_silence_threshold ≤ m.silence_frames + 1 then
            match m.wav_writer with
            | some w =>
              if 0 < w.samples then
                -- finalize, flush (result only logged), dispatch, open
                -- the next file, stay in Recording
                (⟨.recording, m.file_idx + 1, some ⟨m.file_idx, 0⟩, 0⟩,
                 ⟨[.transcribeFile (m.file_idx - 1)], [m.file_idx],
                  false, false, true⟩)
              else
                -- zero-duration file: keep the writer, skip transcription
                (⟨m.state, m.file_idx, m.wav_writer, 0⟩, apQuiet)
            | none => (⟨m.state, m.file_idx, m.wav_writer, 0⟩, apQuiet)
          else
            (⟨m.state, m.file_idx, m.wav_writer, m.silence_frames + 1⟩,
             apQuiet)
        | .speech =>
          -- lines 401-432: append cache samples then data samples,
          -- reset the silence counter
          let added := (if 0 < inp.res.vad_cache_size then
              inp.res.vad_cache_size / 2 else 0) + inp.res.data_size / 2
          (⟨m.state, m.file_idx,
            m.wav_writer.map (fun w => ⟨w.idx, w.samples + added⟩), 0⟩,
           apQuiet)

/-- The machine state reached from `apInit` after a list of inputs. -/
def ap_run (l : List ApInput) : ApMachine :=
  l.foldl (fun m i => (ap_fetch_step m i).1) apInit

/-- All file indices created along a run, in creation order. -/
def ap_run_created : ApMachine → List ApInput → List Nat
  | _, [] => []
  | m, i :: rest =>
    (ap_fetch_step m i).2.created ++
      ap_run_created (ap_fetch_step m i).1 rest

/-- A loop state reachable from the initial state. -/
def ApReachable (m : ApMachine) : Prop := ∃ l, ap_run l = m

/-- `State` in `main.rs` (lines 369-376). -/
inductive MainState
  | wakeWordDetecting
  | cmdDetecting
  | recording
deriving DecidableEq

/-- Multinet detection outcome (`main.rs` lines 522-563). -/
inductive MnState
  | noMatch
  | detected
  | timeout
deriving DecidableEq

/-- The loop-local variables of `inner_fetch_proc` in `main.rs`. -/
structure MainMachine where
  state : MainState
  file_idx : Nat
  wav_writer : Option RecordingSession
  silence_frames : Nat
deriving DecidableEq

/-- What one iteration of the `main.rs` fetch loop reads. -/
structure MainInput where
  engine_fail : Bool
  res : FetchResult
  mn_state : MnState
  flush_ok : Bool
deriving DecidableEq

/-- Externally visible actions of one `main.rs` loop iteration. -/
structure MainOutput where
  sent : List TranscriptionMessage
  created : List Nat
  enabled_wakenet : Bool
  disabled_wakenet : Bool
  multinet_cleaned : Bool
  flush_attempted : Bool
deriving DecidableEq

/-- The silent output of the `main.rs` loop. -/
def mainQuiet : MainOutput := ⟨[], [], false, false, false, false⟩

/-- `frames_per_second` in `main.rs` line 487 (`16000 / 480`). -/
def main_frames_per_second : Nat := 16000 / 480

/-- The silence threshold `frames_per_second * 2` of `main.rs`
line 586. -/
def main_silence_threshold : Nat := main_frames_per_second * 2

/-- The initial loop state of `inner_fetch_proc` (`main.rs`
lines 479-486). -/
def mainInit : MainMachine := ⟨.wakeWordDetecting, 0, none, 0⟩

/-- One iteration of the `main.rs` fetch loop (lines 492-624). -/
def main_fetch_step (m : MainMachine) (inp : MainInput) :
    MainMachine × MainOutput :=
  if inp.engine_fail then (m, mainQuiet)
  else
    match m.state with
    | .wakeWordDetecting =>
      if inp.res.wakeup_detected then
        -- lines 511-518: disable wakenet, clean the command matcher
        (⟨.cmdDetecting, m.file_idx, m.wav_writer, m.silence_frames⟩,
         ⟨[], [], false, true, true, false⟩)
      else (m, mainQuiet)
    | .cmdDetecting =>
      match inp.mn_state with
      | .detected =>
        -- lines 523-556: open a new WAV file, reset the silence counter
        (⟨.recording, m.file_idx + 1, some ⟨m.file_idx, 0⟩, 0⟩,
         ⟨[], [m.file_idx], false, false, false, false⟩)
      | .timeout =>
        -- lines 557-563: back to wake-word detection
        (⟨.wakeWordDetecting, m.file_idx, m.wav_writer, m.silence_frames⟩,
         ⟨[], [], true, false, false, false⟩)
      | .noMatch => (m, mainQuiet)
    | .recording =>
      -- lines 570-580: write this frame's samples before the VAD branch,
      -- regardless of the VAD state
      let w := m.wav_writer.map
        (fun w => ⟨w.idx, w.samples + inp.res.data_size / 2⟩)
      match inp.res.vad_state with
      | .silence =>
        if main_silence_threshold ≤ m.silence_frames + 1 then
          -- lines 586-613: finalize; dispatch only if the flush
          -- succeeded; re-enable wakenet; back to wake-word detection
          match w with
          | some _ =>
            (⟨.wakeWordDetecting, m.file_idx, none, m.silence_frames + 1⟩,
             ⟨if inp.flush_ok then [.transcribeFile (m.file_idx - 1)]
               else [],
              [], true, false, false, true⟩)
          | none =>
            (⟨.wakeWordDetecting, m.file_idx, none, m.silence_frames + 1⟩,
             ⟨[], [], true, false, false, false⟩)
        else
          (⟨m.state, m.file_idx, w, m.silence_frames + 1⟩, mainQuiet)
      | .speech => (⟨m.state, m.file_idx, w, 0⟩, mainQuiet)

/-- The machine state reached from `mainInit` after a list of inputs. -/
def main_run (l : List MainInput) : MainMachine :=
  l.foldl (fun m i => (main_fetch_step m i).1) mainInit

/-- All file indices created along a `main.rs` run, in creation order. -/
def main_run_created : MainMachine → List MainInput → List Nat
  | _, [] => []
  | m, i :: rest =>
    (main_fetch_step m i).2.created ++
      main_run_created (main_fetch_step m i).1 rest

/-- A writer, when open, always belongs to the most recently assigned
file index. -/
def ap_writer_idx_inv (m : ApMachine) : Prop :=
  ∀ w, m.wav_writer = some w → w.idx + 1 = m.file_idx

/-! Concrete input fixtures used by witnesses and counterexamples. -/

/-- A successful fetch reporting a wake-word detection. -/
def ap_wake_input : ApInput := ⟨false, ⟨true, .silence, 0, 0⟩, none, true⟩

/-- A successful fetch with a speech frame of 10 bytes (5 samples). -/
def ap_speech_input : ApInput := ⟨false, ⟨false, .speech, 10, 0⟩, none, true⟩

/-- A successful fetch with a silence frame and no pending response. -/
def ap_silence_input : ApInput := ⟨false, ⟨false, .silence, 0, 0⟩, none, true⟩

/-- A run that opens a session, records one speech frame, then observes
123 silence frames: one more silence frame reaches the threshold. -/
def ap_threshold_run : List ApInput :=
  [ap_wake_input, ap_speech_input] ++ List.replicate 123 ap_silence_input

/-- A successful `main.rs` fetch reporting a wake-word detection. -/
def main_wake_input : MainInput := ⟨false, ⟨true, .silence, 0, 0⟩, .noMatch, true⟩

/-- A successful `main.rs` fetch whose multinet detection matched. -/
def main_cmd_input : MainInput := ⟨false, ⟨false, .silence, 0, 0⟩, .detected, true⟩

/-- A `main.rs` silence frame carrying no PCM data, flush succeeding. -/
def main_empty_silence_input : MainInput :=
  ⟨false, ⟨false, .silence, 0, 0⟩, .noMatch, true⟩

/-- A `main.rs` silence frame carrying 4 bytes (2 samples) of PCM data,
with `flush_filesystem` failing. -/
def main_data_silence_flushfail_input : MainInput :=
  ⟨false, ⟨false, .silence, 4, 0⟩, .noMatch, false⟩

/-- A `main.rs` run that enters `Recording` and then observes 65 empty
silence frames: one more reaches the threshold with zero samples. -/
def main_empty_session_run : List MainInput :=
  [main_wake_input, main_cmd_input] ++
    List.replicate 65 main_empty_silence_input

/-- A `main.rs` run that enters `Recording` and then observes 65
data-carrying silence frames (130 samples): one more reaches the
threshold with a non-empty session but a failing flush. -/
def main_full_session_run : List MainInput :=
  [main_wake_input, main_cmd_input] ++
    List.replicate 65 main_data_silence_flushfail_input

/-- The invariant carried through both chunk-assembly loops: every
finished chunk has at most `N` characters, and so does the chunk under
construction. -/
def chunkInv (N : Nat) (st : List (List Char) × List Char) : Prop :=
  (∀ c ∈ st.1, c.length ≤ N) ∧ st.2.length ≤ N

/-! ## Proofs -/

/-! ## Lemmas about the chunking algorithm -/

lemma one_le_utf8Size (c : Char) : 1 ≤ c.utf8Size := by
  simp only [Char.utf8Size]
  split <;> try omega
  split <;> try omega
  split <;> omega

lemma length_le_utf8Len (l : List Char) : l.length ≤ utf8Len l := by
  induction l with
  | nil => simp [utf8Len]
  | cons c cs ih =>
    have := one_le_utf8Size c
    simp only [utf8Len, List.map_cons, List.sum_cons, List.length_cons]
    simp only [utf8Len] at ih
    omega

lemma sliceChunks_length_le_aux (n : Nat) (hn : 0 < n) :
    ∀ (k : Nat) (l : List Char), l.length ≤ k →
      ∀ c ∈ sliceChunks n l, c.length ≤ n := by
  intro k
  induction k with
  | zero =>
    intro l hl c hc
    have hnil : l = [] := List.length_eq_zero.mp (Nat.le_zero.mp hl)
    subst hnil
    rw [sliceChunks] at hc
    simp at hc
  | succ k ih =>
    intro l hl c hc
    cases l with
    | nil => rw [sliceChunks] at hc; simp at hc
    | cons x xs =>
      rw [sliceChunks] at hc
      simp only [List.mem_cons] at hc
      rcases hc with hc | hc
      · subst hc
        simp only [List.length_cons, List.length_take]
        omega
      · refine ih (xs.drop (n - 1)) ?_ c hc
        simp only [List.length_cons] at hl
        simp only [List.length_drop]
        omega

lemma sliceChunks_length_le (n : Nat) (hn : 0 < n) (l : List Char) :
    ∀ c ∈ sliceChunks n l, c.length ≤ n :=
  sliceChunks_length_le_aux n hn l.length l (le_refl _)

lemma foldl_inv {α β : Type} (P : β → Prop) (f : β → α → β) (l : List α)
    (st : β) (hstep : ∀ st a, a ∈ l → P st → P (f st a)) (h0 : P st) :
    P (l.foldl f st) := by
  induction l generalizing st with
  | nil => exact h0
  | cons a l ih =>
    exact ih _ (fun st b hb => hstep st b (List.mem_cons_of_mem _ hb))
      (hstep st a (List.mem_cons_self _ _) h0)

lemma mem_push_chunk {N : Nat} {chunks : List (List Char)}
    {cur c : List Char} (h1 : ∀ c ∈ chunks, c.length ≤ N)
    (h2 : cur.length ≤ N) (hc : c ∈ chunks ++ [cur]) : c.length ≤ N := by
  simp only [List.mem_append, List.mem_singleton] at hc
  rcases hc with hc | hc
  · exact h1 c hc
  · subst hc; exact h2

lemma append_current_length {N : Nat} {cur u : List Char}
    (hb : utf8Len cur + utf8Len u + 1 ≤ N) :
    (cur ++ ' ' :: u).length ≤ N := by
  have e1 := length_le_utf8Len cur
  have e2 := length_le_utf8Len u
  simp only [List.length_append, List.length_cons]
  omega

lemma trim_length_le {N : Nat} {u : List Char}
    (h : ¬ N < utf8Len (rustTrim u)) : (rustTrim u).length ≤ N :=
  calc (rustTrim u).length ≤ utf8Len (rustTrim u) := length_le_utf8Len _
    _ ≤ N := by omega

lemma processPart_inv (N : Nat) (hN : 0 < N)
    (st : List (List Char) × List Char) (u : List Char)
    (h : chunkInv N st) : chunkInv N (processPart N st u) := by
  obtain ⟨h1, h2⟩ := h
  unfold processPart
  dsimp only
  split_ifs with ht hl hov h4 h5 hov2 h6 h7
  · exact ⟨h1, h2⟩
  · exact (h4 rfl).elim
  · -- current pushed by the overflow check, then hard split
    refine ⟨fun c hc => ?_, by simp⟩
    simp only [List.mem_append, List.mem_singleton] at hc
    rcases hc with (hc | hc) | hc
    · exact h1 c hc
    · subst hc; exact h2
    · exact sliceChunks_length_le N hN _ c hc
  · -- current flushed before the hard split
    refine ⟨fun c hc => ?_, by simp⟩
    simp only [List.mem_append, List.mem_singleton] at hc
    rcases hc with (hc | hc) | hc
    · exact h1 c hc
    · subst hc; exact h2
    · exact sliceChunks_length_le N hN _ c hc
  · -- current empty, hard split only
    refine ⟨fun c hc => ?_, by simp⟩
    simp only [List.mem_append] at hc
    rcases hc with hc | hc
    · exact h1 c hc
    · exact sliceChunks_length_le N hN _ c hc
  · -- overflow push fired, part fits, current := part
    exact ⟨fun c hc => mem_push_chunk h1 h2 hc, trim_length_le hl⟩
  · exact (h6 rfl).elim
  · -- no push, part fits, current empty
    exact ⟨h1, trim_length_le hl⟩
  · -- no push, part fits, appended to current
    refine ⟨h1, ?_⟩
    have hb : utf8Len st.2 + utf8Len (rustTrim u) + 1 ≤ N := by
      by_contra hcon
      exact hov2 ⟨by simpa using h7, by omega⟩
    exact append_current_length hb

lemma split_long_sentence_length_le (N : Nat) (hN : 0 < N)
    (s : List Char) : ∀ c ∈ split_long_sentence s N, c.length ≤ N := by
  intro c hc
  unfold split_long_sentence at hc
  have hinv : chunkInv N ((s.splitOnP isCommaSep).foldl (processPart N)
      ([], [])) :=
    foldl_inv _ _ _ _ (fun st a _ h => processPart_inv N hN st a h)
      ⟨by simp, by simp⟩
  obtain ⟨h1, h2⟩ := hinv
  dsimp only at hc
  split at hc
  · simp only [List.mem_append, List.mem_singleton] at hc
    rcases hc with hc | hc
    · exact h1 c hc
    · subst hc; exact h2
  · exact h1 c hc

lemma appendUnit_inv (N : Nat) (st : List (List Char) × List Char)
    (u : List Char) (hu : u.length ≤ N) (h : chunkInv N st) :
    chunkInv N (appendUnit N st u) := by
  obtain ⟨h1, h2⟩ := h
  unfold appendUnit
  dsimp only
  split_ifs with hov h6 h7
  · exact ⟨fun c hc => mem_push_chunk h1 h2 hc, hu⟩
  · exact (h6 rfl).elim
  · exact ⟨h1, hu⟩
  · refine ⟨h1, ?_⟩
    have hb : utf8Len st.2 + utf8Len u + 1 ≤ N := by
      by_contra hcon
      exact hov ⟨by simpa using h7, by omega⟩
    exact append_current_length hb

lemma processSentence_inv (N : Nat) (hN : 0 < N)
    (st : List (List Char) × List Char) (u : List Char)
    (h : chunkInv N st) : chunkInv N (processSentence N st u) := by
  obtain ⟨h1, h2⟩ := h
  unfold processSentence
  dsimp only
  split_ifs with ht hl hov hov2 h6 h7
  · exact ⟨h1, h2⟩
  · -- long sentence, current pushed first, sub-chunks folded in
    exact foldl_inv _ _ _ _
      (fun st' a ha h' => appendUnit_inv N st' a
        (split_long_sentence_length_le N hN _ a ha) h')
      ⟨fun c hc => mem_push_chunk h1 h2 hc, by simp⟩
  · -- long sentence, nothing to push
    exact foldl_inv _ _ _ _
      (fun st' a ha h' => appendUnit_inv N st' a
        (split_long_sentence_length_le N hN _ a ha) h') ⟨h1, h2⟩
  · -- push fired, sentence fits, current := sentence
    exact ⟨fun c hc => mem_push_chunk h1 h2 hc, trim_length_le hl⟩
  · exact (h6 rfl).elim
  · -- no push, sentence fits, current empty
    exact ⟨h1, trim_length_le hl⟩
  · -- no push, sentence fits, appended to current
    refine ⟨h1, ?_⟩
    have hb : utf8Len st.2 + utf8Len (rustTrim u) + 1 ≤ N := by
      by_contra hcon
      exact hov2 ⟨by simpa using h7, by omega⟩
    exact append_current_length hb

/-! ## Claims C2 and C10 -/

/-- C2 (amended): for every text and every limit `N = max_chunk_chars > 0`,
each chunk emitted by `split_text_into_chunks` has at most `N` characters,
except when the splitting rules produce no chunk at all, in which case the
whole original text is returned as the single (possibly over-length)
chunk. -/
theorem c2_chunk_length_bound (text : List Char) (N : Nat) (c : List Char)
    (hN : 0 < N) (hc : c ∈ split_text_into_chunks text N) :
    c.length ≤ N ∨ split_text_into_chunks text N = [text] := by
  by_cases h0 : split_text_into_chunks_core text N = []
  · right
    simp [split_text_into_chunks, h0]
  · left
    have hinv : chunkInv N
        ((text.splitOnP isSentenceSep).foldl (processSentence N) ([], [])) :=
      foldl_inv _ _ _ _ (fun st a _ h => processSentence_inv N hN st a h)
        ⟨by simp, by simp⟩
    obtain ⟨h1, h2⟩ := hinv
    have hc' : c ∈ split_text_into_chunks_core text N := by
      simpa [split_text_into_chunks, h0] using hc
    unfold split_text_into_chunks_core at hc'
    dsimp only at hc'
    split at hc'
    · exact mem_push_chunk h1 h2 hc'
    · exact h1 c hc'

/-- Witness for C2 at a concrete input: with `N = 3`, the text `ab.cd`
yields the chunk `ab`, which satisfies the bound. -/
theorem c2_chunk_length_bound_witness :
    (['a', 'b'] : List Char).length ≤ 3 ∨
      split_text_into_chunks ['a', 'b', '.', 'c', 'd'] 3 =
        [['a', 'b', '.', 'c', 'd']] :=
  c2_chunk_length_bound ['a', 'b', '.', 'c', 'd'] 3 ['a', 'b']
    (by decide) (by decide)

/-- C2 counterexample: the input `......` (six sentence terminators, so
every separator-delimited unit trims to empty) with `N = 5` is returned
whole as one chunk of 6 characters (6 bytes), exceeding the limit — and it
is not hard-split into exact-`N` chunks, even though the claim's exception
clause does not cover it (the input consists only of sentence
boundaries). -/
theorem c2_counterexample :
    split_text_into_chunks (List.replicate 6 '.') 5 =
        [List.replicate 6 '.'] ∧
      ¬ (List.replicate 6 '.' : List Char).length ≤ 5 ∧
      utf8Len (List.replicate 6 '.') = 6 := by decide

/-- C10: for every input text and limit, `split_text_into_chunks` returns
a non-empty list, and when the splitting rules produce no chunk the whole
original text is returned as a single chunk. -/
theorem c10_nonempty_chunks (text : List Char) (N : Nat) :
    split_text_into_chunks text N ≠ [] ∧
      (split_text_into_chunks_core text N = [] →
        split_text_into_chunks text N = [text]) := by
  unfold split_text_into_chunks
  by_cases h0 : split_text_into_chunks_core text N = [] <;> simp [h0]

/-- Witness for C10 at a concrete input: the empty text produces no chunk,
so the fallback returns the original (empty) text as the single chunk. -/
theorem c10_nonempty_chunks_witness :
    split_text_into_chunks ([] : List Char) 5 = [[]] :=
  (c10_nonempty_chunks [] 5).2 (by decide)

/-! ## Claims C9, C1 and C5 -/

lemma send_message_system_eq (s : LlmHelper) (text : String)
    (api : List ChatMessage → ApiResult) :
    send_message s text .system api =
      (⟨s.message_history ++ [⟨"system", text⟩]⟩, "", false) := rfl

/-- C9: sending a message with the `System` role appends it to the
conversation history and returns the empty string with no API request
made (so it can never produce an `Error: …` result). -/
theorem c9_system_message_no_api_call (s : LlmHelper) (text : String)
    (api : List ChatMessage → ApiResult) :
    send_message s text .system api =
      (⟨s.message_history ++ [⟨"system", text⟩]⟩, "", false) :=
  send_message_system_eq s text api

lemma clear_history_eq (s : LlmHelper) :
    clear_history s = ⟨s.message_history.filter (fun m => m.role == "system")⟩ := by
  obtain ⟨h⟩ := s
  unfold clear_history
  split
  · simp_all
  · rfl

lemma handle_restart_session_eq (api : List ChatMessage → ApiResult)
    (s : LlmHelper) :
    handle_restart_session s api =
      ⟨s.message_history.filter (fun m => m.role == "system") ++
        [⟨"system", restart_system_prompt⟩]⟩ := by
  unfold handle_restart_session
  rw [clear_history_eq]
  rfl

/-- C1 counterexample: starting from the worker's initial context (the
start-up system prompt), one `RestartSession` yields a two-message
context, a second one yields a three-message context — applying the
operation twice does not equal applying it once. -/
theorem c1_counterexample :
    handle_restart_session
        (handle_restart_session (worker_init_llm (fun _ => .failure "down"))
          (fun _ => .failure "down"))
        (fun _ => .failure "down") ≠
      handle_restart_session (worker_init_llm (fun _ => .failure "down"))
        (fun _ => .failure "down") := by decide

/-- C1 (amended): `RestartSession` truncates the context to its system
turns and appends one fresh system-prompt turn; applying it twice yields
the context of applying it once with one extra copy of the system prompt
appended, so the operation is not idempotent (each application grows the
context by one turn). -/
theorem c1_restart_session_growth (api : List ChatMessage → ApiResult)
    (s : LlmHelper) :
    handle_restart_session s api =
      ⟨s.message_history.filter (fun m => m.role == "system") ++
        [⟨"system", restart_system_prompt⟩]⟩ ∧
    handle_restart_session (handle_restart_session s api) api =
      ⟨(handle_restart_session s api).message_history ++
        [⟨"system", restart_system_prompt⟩]⟩ := by
  refine ⟨handle_restart_session_eq api s, ?_⟩
  rw [handle_restart_session_eq, handle_restart_session_eq]
  congr 1
  rw [List.filter_append, List.filter_filter]
  simp only [Bool.and_self]
  rfl

/-- C5 counterexample: a transcription that succeeds with the empty
string is dropped entirely — nothing is forwarded on the response
channel, contradicting the claim that every successful transcription is
forwarded. -/
theorem c5_counterexample :
    handle_transcribe_file ⟨[]⟩ (.ok "") (fun _ => .failure "down") =
      (⟨[]⟩, []) := by decide

/-- C5 (amended): for every `TranscribeFile` whose transcription succeeds
with a non-empty transcript, the worker forwards the transcript on the
response channel as its first action, whatever the LLM outcome; and when
the transcript equals the exit phrase, the goodbye utterance is played
through TTS, no LLM call is made and the context is unchanged. -/
theorem c5_forward_first_and_exit (s : LlmHelper) (t : String)
    (api : List ChatMessage → ApiResult) (ht : t ≠ "") :
    (handle_transcribe_file s (.ok t) api).2.head? =
        some (.sendResponse t) ∧
      (t = exit_phrase →
        handle_transcribe_file s (.ok t) api =
            (s, [.sendResponse t, .ttsPlay exit_phrase]) ∧
          ∀ x, WorkerEvent.llmCall x ∉
            (handle_transcribe_file s (.ok t) api).2) := by
  unfold handle_transcribe_file
  dsimp only
  rw [if_neg ht]
  by_cases he : t = exit_phrase
  · rw [if_pos he]
    exact ⟨rfl, fun _ => ⟨rfl, by simp⟩⟩
  · rw [if_neg he]
    refine ⟨?_, fun h => absurd h he⟩
    dsimp only
    split <;> rfl

/-- Witness for C5 at a concrete input: the exit phrase itself. -/
theorem c5_forward_first_and_exit_witness :
    (handle_transcribe_file ⟨[]⟩ (.ok "再见")
          (fun _ => .failure "down")).2.head? =
        some (.sendResponse "再见") ∧
      ("再见" = exit_phrase →
        handle_transcribe_file ⟨[]⟩ (.ok "再见") (fun _ => .failure "down") =
            (⟨[]⟩, [.sendResponse "再见", .ttsPlay exit_phrase]) ∧
          ∀ x, WorkerEvent.llmCall x ∉
            (handle_transcribe_file ⟨[]⟩ (.ok "再见")
              (fun _ => .failure "down")).2) :=
  c5_forward_first_and_exit ⟨[]⟩ "再见" (fun _ => .failure "down")
    (by decide)

/-! ## Claim C6 -/

/-- C6: while in `Recording`, if the non-blocking poll of the response
channel yields the exit phrase, the machine finalizes the current session
(dropping the writer), re-enables wake-word detection and moves to
`WakeWordDetecting`, dispatching nothing; and in `WakeWordDetecting` the
step does not depend on the polled response at all (the channel is only
polled in `Recording`), so each received exit utterance, being consumed
by the poll, causes the transition exactly once. -/
theorem c6_exit_phrase_transition (m : ApMachine) (inp : ApInput)
    (hf : inp.engine_fail = false) :
    (m.state = .recording → inp.response = some exit_phrase →
      ap_fetch_step m inp =
        (⟨.wakeWordDetecting, m.file_idx + 1, none, m.silence_frames⟩,
         ⟨[], [], true, false, false⟩)) ∧
    (m.state = .wakeWordDetecting → ∀ r : Option String,
      ap_fetch_step m inp =
        ap_fetch_step m ⟨inp.engine_fail, inp.res, r, inp.flush_ok⟩) := by
  constructor
  · intro hs hr
    simp [ap_fetch_step, hf, hs, hr]
  · intro hs r
    simp [ap_fetch_step, hf, hs]

/-- Witness for C6 at a concrete state: a recording session with an open
writer receives the exit phrase. -/
theorem c6_exit_phrase_transition_witness :
    ((⟨.recording, 1, some ⟨0, 5⟩, 3⟩ : ApMachine).state = .recording →
      (⟨false, ⟨false, .silence, 0, 0⟩, some exit_phrase, true⟩ :
          ApInput).response = some exit_phrase →
      ap_fetch_step ⟨.recording, 1, some ⟨0, 5⟩, 3⟩
          ⟨false, ⟨false, .silence, 0, 0⟩, some exit_phrase, true⟩ =
        (⟨.wakeWordDetecting, 2, none, 3⟩, ⟨[], [], true, false, false⟩)) ∧
    ((⟨.recording, 1, some ⟨0, 5⟩, 3⟩ : ApMachine).state =
        .wakeWordDetecting → ∀ r : Option String,
      ap_fetch_step ⟨.recording, 1, some ⟨0, 5⟩, 3⟩
          ⟨false, ⟨false, .silence, 0, 0⟩, some exit_phrase, true⟩ =
        ap_fetch_step ⟨.recording, 1, some ⟨0, 5⟩, 3⟩
          ⟨false, ⟨false, .silence, 0, 0⟩, r, true⟩) :=
  c6_exit_phrase_transition ⟨.recording, 1, some ⟨0, 5⟩, 3⟩
    ⟨false, ⟨false, .silence, 0, 0⟩, some exit_phrase, true⟩ rfl

/-! ## Claim C3 -/

lemma ap_step_transcribe_sent (m : ApMachine) (inp : ApInput) (idx : Nat)
    (h : TranscriptionMessage.transcribeFile idx ∈
      (ap_fetch_step m inp).2.sent) :
    m.state = .recording ∧ idx = m.file_idx - 1 ∧
      ∃ w, m.wav_writer = some w ∧ 0 < w.samples := by
  by_cases hf : inp.engine_fail
  · simp [ap_fetch_step, hf, apQuiet] at h
  · cases hs : m.state
    · -- wakeWordDetecting
      by_cases hw : inp.res.wakeup_detected <;>
        simp [ap_fetch_step, hf, hs, hw, apQuiet] at h
    · -- recording
      by_cases hr : inp.response = some exit_phrase
      · simp [ap_fetch_step, hf, hs, hr, apQuiet] at h
      · cases hv : inp.res.vad_state
        · -- speech
          simp [ap_fetch_step, hf, hs, hr, hv, apQuiet] at h
        · -- silence
          by_cases hth : ap_silence_threshold ≤ m.silence_frames + 1
          · cases hwr : m.wav_writer with
            | none =>
              simp [ap_fetch_step, hf, hs, hr, hv, hth, hwr, apQuiet] at h
            | some w =>
              by_cases hsm : 0 < w.samples
              · simp [ap_fetch_step, hf, hs, hr, hv, hth, hwr, hsm,
                  apQuiet] at h
                exact ⟨rfl, h, w, rfl, hsm⟩
              · simp [ap_fetch_step, hf, hs, hr, hv, hth, hwr, hsm,
                  apQuiet] at h
          · simp [ap_fetch_step, hf, hs, hr, hv, hth, apQuiet] at h

lemma ap_step_writer_idx_inv (m : ApMachine) (inp : ApInput)
    (h : ap_writer_idx_inv m) :
    ap_writer_idx_inv (ap_fetch_step m inp).1 := by
  intro w hw
  by_cases hf : inp.engine_fail
  · simp [ap_fetch_step, hf] at hw ⊢
    exact h w hw
  · cases hs : m.state
    · -- wakeWordDetecting
      by_cases hwk : inp.res.wakeup_detected
      · simp [ap_fetch_step, hf, hs, hwk] at hw ⊢
        subst hw
        simp
      · simp [ap_fetch_step, hf, hs, hwk] at hw ⊢
        exact h w hw
    · -- recording
      by_cases hr : inp.response = some exit_phrase
      · simp [ap_fetch_step, hf, hs, hr] at hw
      · cases hv : inp.res.vad_state
        · -- speech
          cases hwr : m.wav_writer with
          | none => simp [ap_fetch_step, hf, hs, hr, hv, hwr] at hw
          | some w0 =>
            simp [ap_fetch_step, hf, hs, hr, hv, hwr] at hw ⊢
            subst hw
            simpa using h w0 hwr
        · -- silence
          by_cases hth : ap_silence_threshold ≤ m.silence_frames + 1
          · cases hwr : m.wav_writer with
            | none =>
              simp [ap_fetch_step, hf, hs, hr, hv, hth, hwr] at hw
            | some w0 =>
              by_cases hsm : 0 < w0.samples
              · simp [ap_fetch_step, hf, hs, hr, hv, hth, hwr, hsm]
                  at hw ⊢
                subst hw
                simp
              · simp [ap_fetch_step, hf, hs, hr, hv, hth, hwr, hsm]
                  at hw ⊢
                subst hw
                exact h _ hwr
          · simp [ap_fetch_step, hf, hs, hr, hv, hth] at hw ⊢
            exact h w hw

lemma ap_run_writer_idx_inv (l : List ApInput) :
    ap_writer_idx_inv (ap_run l) := by
  have hgen : ∀ (l' : List ApInput) (m : ApMachine), ap_writer_idx_inv m →
      ap_writer_idx_inv (l'.foldl (fun m i => (ap_fetch_step m i).1) m) := by
    intro l'
    induction l' with
    | nil => exact fun m h => h
    | cons i rest ih =>
      intro m h
      exact ih _ (ap_step_writer_idx_inv m i h)
  refine hgen l apInit ?_
  intro w hw
  simp [apInit] at hw

/-- C3 (amended): in the continuous-conversation fetch machine of
`audio_processing.rs`, from any reachable loop state, a `TranscribeFile`
message is emitted only when the open recording session has a positive
sample count, and the dispatched file index is that session's own index.
(The claim as universally stated fails on the repository's other fetch
machine, in `main.rs`, which has no sample-count guard — see the
counterexample.) -/
theorem c3_zero_sample_never_dispatched (m : ApMachine)
    (hm : ApReachable m) (inp : ApInput) (idx : Nat)
    (h : TranscriptionMessage.transcribeFile idx ∈
      (ap_fetch_step m inp).2.sent) :
    ∃ w, m.wav_writer = some w ∧ 0 < w.samples ∧ idx = w.idx := by
  obtain ⟨-, hidx, w, hw, hpos⟩ := ap_step_transcribe_sent m inp idx h
  obtain ⟨l, hl⟩ := hm
  have hinv : ap_writer_idx_inv m := hl ▸ ap_run_writer_idx_inv l
  have hwi := hinv w hw
  exact ⟨w, hw, hpos, by omega⟩

set_option maxRecDepth 20000 in
/-- Witness for C3: after a wake-up, one speech frame and 123 silence
frames, the 124th silence frame dispatches the session, whose sample
count is positive and whose index is 0. -/
theorem c3_zero_sample_never_dispatched_witness :
    ∃ w, (ap_run ap_threshold_run).wav_writer = some w ∧
      0 < w.samples ∧ 0 = w.idx :=
  c3_zero_sample_never_dispatched (ap_run ap_threshold_run)
    ⟨ap_threshold_run, rfl⟩ ap_silence_input 0 (by decide)

set_option maxRecDepth 20000 in
/-- C3 counterexample: the `main.rs` fetch machine writes every fetched
frame's samples and dispatches at the silence threshold without checking
the sample count — a session whose frames all carried zero PCM bytes is
dispatched with zero samples (when the flush succeeds). -/
theorem c3_counterexample :
    (main_run main_empty_session_run).wav_writer = some ⟨0, 0⟩ ∧
      (main_fetch_step (main_run main_empty_session_run)
          main_empty_silence_input).2.sent =
        [TranscriptionMessage.transcribeFile 0] := by decide

/-! ## Claim C4 -/

lemma ap_step_threshold_eq (m : ApMachine) (inp : ApInput)
    (w : RecordingSession) (hf : inp.engine_fail = false)
    (hs : m.state = .recording) (hr : inp.response ≠ some exit_phrase)
    (hv : inp.res.vad_state = .silence)
    (hth : ap_silence_threshold ≤ m.silence_frames + 1)
    (hw : m.wav_writer = some w) (hpos : 0 < w.samples) :
    ap_fetch_step m inp =
      (⟨.recording, m.file_idx + 1, some ⟨m.file_idx, 0⟩, 0⟩,
       ⟨[.transcribeFile (m.file_idx - 1)], [m.file_idx], false, false,
        true⟩) := by
  simp [ap_fetch_step, hf, hs, hr, hv, hth, hw, hpos]

/-- C4 (amended): in the continuous-conversation fetch machine of
`audio_processing.rs`, when the silence-frame counter reaches the
threshold in state `Recording` with a non-empty session, the machine
finalizes the session, attempts the durable flush, sends
`TranscribeFile` for the session's file, and immediately opens the next
recording file, staying in state `Recording` with the silence counter
reset; it does not re-enable wake-word detection and does not return to
`WakeWordDetecting` (only the exit phrase does — the behavior the claim
describes belongs to the `main.rs` variant). -/
theorem c4_silence_threshold_behavior (m : ApMachine) (inp : ApInput)
    (w : RecordingSession) (hf : inp.engine_fail = false)
    (hs : m.state = .recording) (hr : inp.response ≠ some exit_phrase)
    (hv : inp.res.vad_state = .silence)
    (hth : ap_silence_threshold ≤ m.silence_frames + 1)
    (hw : m.wav_writer = some w) (hpos : 0 < w.samples) :
    ap_fetch_step m inp =
      (⟨.recording, m.file_idx + 1, some ⟨m.file_idx, 0⟩, 0⟩,
       ⟨[.transcribeFile (m.file_idx - 1)], [m.file_idx], false, false,
        true⟩) :=
  ap_step_threshold_eq m inp w hf hs hr hv hth hw hpos

/-- Witness for C4 at a concrete state: a recording session with 5
samples and a silence counter at 123 receives its 124th silence frame. -/
theorem c4_silence_threshold_behavior_witness :
    ap_fetch_step ⟨.recording, 1, some ⟨0, 5⟩, 123⟩ ap_silence_input =
      (⟨.recording, 2, some ⟨1, 0⟩, 0⟩,
       ⟨[.transcribeFile 0], [1], false, false, true⟩) :=
  c4_silence_threshold_behavior ⟨.recording, 1, some ⟨0, 5⟩, 123⟩
    ap_silence_input ⟨0, 5⟩ rfl rfl (by decide) rfl (by decide) rfl
    (by decide)

set_option maxRecDepth 20000 in
/-- C4 counterexample: at the silence threshold the
`audio_processing.rs` machine dispatches the file but stays in
`Recording` and does not re-enable wake-word detection, contradicting
the claimed transition to `WakeWordDetecting`. -/
theorem c4_counterexample :
    (ap_fetch_step (ap_run ap_threshold_run) ap_silence_input).2.sent =
        [TranscriptionMessage.transcribeFile 0] ∧
      (ap_fetch_step (ap_run ap_threshold_run) ap_silence_input).1.state =
        APState.recording ∧
      (ap_fetch_step (ap_run ap_threshold_run)
          ap_silence_input).2.enabled_wakenet = false := by decide

/-! ## Claim C7 -/

lemma ap_step_created (m : ApMachine) (inp : ApInput) :
    ((ap_fetch_step m inp).2.created = [] ∨
      ((ap_fetch_step m inp).2.created = [m.file_idx] ∧
        m.file_idx < (ap_fetch_step m inp).1.file_idx)) ∧
    m.file_idx ≤ (ap_fetch_step m inp).1.file_idx := by
  by_cases hf : inp.engine_fail
  · simp [ap_fetch_step, hf, apQuiet]
  · cases hs : m.state
    · -- wakeWordDetecting
      by_cases hwk : inp.res.wakeup_detected <;>
        simp [ap_fetch_step, hf, hs, hwk, apQuiet]
    · -- recording
      by_cases hr : inp.response = some exit_phrase
      · simp [ap_fetch_step, hf, hs, hr, apQuiet]
      · cases hv : inp.res.vad_state
        · -- speech
          simp [ap_fetch_step, hf, hs, hr, hv, apQuiet]
        · -- silence
          by_cases hth : ap_silence_threshold ≤ m.silence_frames + 1
          · cases hwr : m.wav_writer with
            | none =>
              simp [ap_fetch_step, hf, hs, hr, hv, hth, hwr, apQuiet]
            | some w0 =>
              by_cases hsm : 0 < w0.samples <;>
                simp [ap_fetch_step, hf, hs, hr, hv, hth, hwr, hsm,
                  apQuiet]
          · simp [ap_fetch_step, hf, hs, hr, hv, hth, apQuiet]

lemma ap_run_created_bounds :
    ∀ (l : List ApInput) (m : ApMachine),
      (∀ j ∈ ap_run_created m l, m.file_idx ≤ j) ∧
        List.Pairwise (· < ·) (ap_run_created m l) := by
  intro l
  induction l with
  | nil => intro m; simp [ap_run_created]
  | cons i rest ih =>
    intro m
    obtain ⟨hc, hmono⟩ := ap_step_created m i
    obtain ⟨ih1, ih2⟩ := ih (ap_fetch_step m i).1
    constructor
    · intro j hj
      simp only [ap_run_created, List.mem_append] at hj
      rcases hj with hj | hj
      · rcases hc with hc | ⟨hc, hlt⟩
        · simp [hc] at hj
        · rw [hc] at hj
          simp at hj
          omega
      · have := ih1 j hj
        omega
    · simp only [ap_run_created]
      rw [List.pairwise_append]
      refine ⟨?_, ih2, ?_⟩
      · rcases hc with hc | ⟨hc, _⟩ <;> simp [hc]
      · intro a ha b hb
        rcases hc with hc | ⟨hc, hlt⟩
        · simp [hc] at ha
        · rw [hc] at ha
          simp at ha
          subst ha
          have := ih1 b hb
          omega

lemma main_step_created (m : MainMachine) (inp : MainInput) :
    ((main_fetch_step m inp).2.created = [] ∨
      ((main_fetch_step m inp).2.created = [m.file_idx] ∧
        m.file_idx < (main_fetch_step m inp).1.file_idx)) ∧
    m.file_idx ≤ (main_fetch_step m inp).1.file_idx := by
  by_cases hf : inp.engine_fail
  · simp [main_fetch_step, hf, mainQuiet]
  · cases hs : m.state
    · -- wakeWordDetecting
      by_cases hwk : inp.res.wakeup_detected <;>
        simp [main_fetch_step, hf, hs, hwk, mainQuiet]
    · -- cmdDetecting
      cases hmn : inp.mn_state <;>
        simp [main_fetch_step, hf, hs, hmn, mainQuiet]
    · -- recording
      cases hv : inp.res.vad_state
      · -- speech
        simp [main_fetch_step, hf, hs, hv, mainQuiet]
      · -- silence
        by_cases hth : main_silence_threshold ≤ m.silence_frames + 1
        · cases hwr : m.wav_writer with
          | none =>
            simp [main_fetch_step, hf, hs, hv, hth, hwr, mainQuiet]
          | some w0 =>
            simp [main_fetch_step, hf, hs, hv, hth, hwr, mainQuiet]
        · simp [main_fetch_step, hf, hs, hv, hth, mainQuiet]

lemma main_run_created_bounds :
    ∀ (l : List MainInput) (m : MainMachine),
      (∀ j ∈ main_run_created m l, m.file_idx ≤ j) ∧
        List.Pairwise (· < ·) (main_run_created m l) := by
  intro l
  induction l with
  | nil => intro m; simp [main_run_created]
  | cons i rest ih =>
    intro m
    obtain ⟨hc, hmono⟩ := main_step_created m i
    obtain ⟨ih1, ih2⟩ := ih (main_fetch_step m i).1
    constructor
    · intro j hj
      simp only [main_run_created, List.mem_append] at hj
      rcases hj with hj | hj
      · rcases hc with hc | ⟨hc, hlt⟩
        · simp [hc] at hj
        · rw [hc] at hj
          simp at hj
          omega
      · have := ih1 j hj
        omega
    · simp only [main_run_created]
      rw [List.pairwise_append]
      refine ⟨?_, ih2, ?_⟩
      · rcases hc with hc | ⟨hc, _⟩ <;> simp [hc]
      · intro a ha b hb
        rcases hc with hc | ⟨hc, hlt⟩
        · simp [hc] at ha
        · rw [hc] at ha
          simp at ha
          subst ha
          have := ih1 b hb
          omega

/-- C7: over every execution of either fetch state machine (the
continuous-conversation one in `audio_processing.rs` and the three-state
one in `main.rs`), the file indices used to name created recording files
are strictly increasing in creation order, so no index is ever reused
within a process lifetime. -/
theorem c7_file_indices_strictly_increasing (l : List ApInput)
    (lm : List MainInput) :
    List.Pairwise (· < ·) (ap_run_created apInit l) ∧
      List.Pairwise (· < ·) (main_run_created mainInit lm) :=
  ⟨(ap_run_created_bounds l apInit).2,
   (main_run_created_bounds lm mainInit).2⟩

/-! ## Claim C8 -/

/-- C8 (amended): in the continuous-conversation fetch machine of
`audio_processing.rs`, the step does not depend on the flush outcome at
all, and a finalized non-empty session is dispatched via `TranscribeFile`
whether or not `flush_filesystem` failed.  (In the `main.rs` variant the
dispatch is inside the flush success branch, so a flush failure does
block it — see the counterexample.) -/
theorem c8_flush_failure_does_not_block_dispatch (m : ApMachine)
    (inp : ApInput) (w : RecordingSession) (hf : inp.engine_fail = false)
    (hs : m.state = .recording) (hr : inp.response ≠ some exit_phrase)
    (hv : inp.res.vad_state = .silence)
    (hth : ap_silence_threshold ≤ m.silence_frames + 1)
    (hw : m.wav_writer = some w) (hpos : 0 < w.samples) :
    ∀ b : Bool,
      ap_fetch_step m ⟨inp.engine_fail, inp.res, inp.response, b⟩ =
          ap_fetch_step m inp ∧
        TranscriptionMessage.transcribeFile (m.file_idx - 1) ∈
          (ap_fetch_step m
            ⟨inp.engine_fail, inp.res, inp.response, b⟩).2.sent := by
  intro b
  have he : ap_fetch_step m ⟨inp.engine_fail, inp.res, inp.response, b⟩ =
      ap_fetch_step m inp := by
    obtain ⟨ef, res, rsp, fo⟩ := inp
    rfl
  refine ⟨he, ?_⟩
  rw [he, ap_step_threshold_eq m inp w hf hs hr hv hth hw hpos]
  simp

/-- Witness for C8 at a concrete state, with the flush failing. -/
theorem c8_flush_failure_does_not_block_dispatch_witness :
    ap_fetch_step ⟨.recording, 1, some ⟨0, 5⟩, 123⟩
        ⟨false, ⟨false, .silence, 0, 0⟩, none, false⟩ =
      ap_fetch_step ⟨.recording, 1, some ⟨0, 5⟩, 123⟩ ap_silence_input ∧
    TranscriptionMessage.transcribeFile 0 ∈
      (ap_fetch_step ⟨.recording, 1, some ⟨0, 5⟩, 123⟩
        ⟨false, ⟨false, .silence, 0, 0⟩, none, false⟩).2.sent :=
  c8_flush_failure_does_not_block_dispatch
    ⟨.recording, 1, some ⟨0, 5⟩, 123⟩ ap_silence_input ⟨0, 5⟩ rfl rfl
    (by decide) rfl (by decide) rfl (by decide) false

set_option maxRecDepth 20000 in
/-- C8 counterexample: in the `main.rs` fetch machine, a session with
130 samples reaches the silence threshold while `flush_filesystem`
fails: the flush is attempted, the machine finalizes and returns to
`WakeWordDetecting`, but no `TranscribeFile` message is sent. -/
theorem c8_counterexample :
    (main_run main_full_session_run).wav_writer = some ⟨0, 130⟩ ∧
      (main_fetch_step (main_run main_full_session_run)
          main_data_silence_flushfail_input).2.flush_attempted = true ∧
      (main_fetch_step (main_run main_full_session_run)
          main_data_silence_flushfail_input).2.sent = [] ∧
      (main_fetch_step (main_run main_full_session_run)
          main_data_silence_flushfail_input).1.state =
        MainState.wakeWordDetecting := by decide

end AiChatbox
